import Mathlib

/-!
Shallow embedding of `src/codekit/cli/github_tag_version.py` (the tagging
pipeline of dm_sq_codetools): cross-referencing of the candidate and manifest
version sources, repository resolution under a team policy, tag planning, and
tag application, together with the `run` wiring of the four stages.

Python dicts are modelled as ordered association lists with last-write-wins
insertion (`dinsert`), mirroring CPython's insertion-ordered dict semantics.
Remote GitHub state (refs, tag objects, team lists) is modelled as data carried
by a `Repo` value; a `failMode` field models the hosting platform raising a
rate-limit or generic error on an API call against that repository.
Exceptions are modelled with `Except`; an uncaught Python runtime error
(`KeyError`, `UnboundLocalError`, `TypeError`, `RuntimeError`) is the
`StageAbort.crash` outcome.
-/

namespace CodeKit

/-- Ordered association list standing for a Python dict. -/
abbrev Dict (α : Type) := List (String × α)

/-- Python `d[k]` lookup: first binding of the key, if any. -/
def dlookup {α : Type} : Dict α → String → Option α
  | [], _ => none
  | p :: d, k => if p.1 == k then some p.2 else dlookup d k

/-- Python `d[k] = v`: overwrite the binding in place if the key is present
(a real Python dict holds each key at most once), else append at the end. -/
def dinsert {α : Type} : Dict α → String → α → Dict α
  | [], k, v => [(k, v)]
  | p :: d, k, v => if p.1 == k then (k, v) :: d else p :: dinsert d k v

/-- Python `d.update(m)`: fold every binding of `m` into `d`. -/
def dupdate {α : Type} (d m : Dict α) : Dict α :=
  m.foldl (fun acc p => dinsert acc p.1 p.2) d

/-- Keys of an association list are pairwise distinct (always true of a real
Python dict). -/
def nodupKeys {α : Type} (d : Dict α) : Prop :=
  (d.map (fun p => p.1)).Nodup

instance {α : Type} (d : Dict α) : Decidable (nodupKeys d) := by
  unfold nodupKeys
  exact List.nodupDecidable _

/-- Mapping equality of two dicts restricted to the non-ignored keys; this is
how Python compares the two comprehensions built by `cmp_dict`. -/
def dictEqOn (d1 d2 : Dict String) : Bool :=
  d1.all (fun p => dlookup d2 p.1 == some p.2)
    && d2.all (fun p => dlookup d1 p.1 == some p.2)

/-- Embedding of `cmp_dict` (source lines 146-150): compare two dicts ignoring
the listed keys. -/
def cmp_dict (d1 d2 : Dict String) (ignore_keys : List String) : Bool :=
  dictEqOn (d1.filter (fun p => !(ignore_keys.contains p.1)))
    (d2.filter (fun p => !(ignore_keys.contains p.1)))

/-- The two tagger representations the code dispatches on in `author_to_dict`,
plus the unsupported case (any other type name). -/
inductive Author : Type where
  | gitAuthor (name email date : String)
  | inputGitAuthor (identity : Dict String)
  | unknownType (typeName : String)
deriving Repr, DecidableEq

/-- Embedding of `author_to_dict` (source lines 295-309): a `GitAuthor`
yields its name and email, an `InputGitAuthor` yields its keyed identity
dict, anything else raises `RuntimeError` (modelled as `.error`). -/
def author_to_dict : Author → Except String (Dict String)
  | .gitAuthor n e _ => .ok [("name", n), ("email", e)]
  | .inputGitAuthor i => .ok i
  | .unknownType t => .error ("unsupported type " ++ t)

/-- Embedding of `cmp_gitauthor` (source lines 312-317): compare the two
tagger dicts ignoring the date key; the `RuntimeError` of `author_to_dict`
propagates. -/
def cmp_gitauthor (a b : Author) : Except String Bool := do
  let da ← author_to_dict a
  let db ← author_to_dict b
  pure (cmp_dict da db ["date"])

/-- An existing annotated tag object as returned by `repo.get_git_tag`
(`github.GitTag.GitTag`): `sha` is the tag object's own sha, `objectSha` the
sha of the commit it points at. -/
structure GitTag where
  sha : String
  tag : String
  message : String
  tagger : Author
  objectSha : String
deriving Repr, DecidableEq

/-- The shared tag template built in `run` (source lines 576-580): name,
message and tagger; `sha` is filled in per product by the planner. -/
structure TagTemplate where
  name : String
  message : String
  tagger : Author
deriving Repr, DecidableEq

/-- A per-product target tag dict (`t_tag` in the source). -/
structure TTag where
  name : String
  message : String
  tagger : Author
  sha : String
deriving Repr, DecidableEq

/-- Embedding of `cmp_existing_git_tag` (source lines 320-330): the target and
existing tags agree when the commit sha, the message, and the tagger identity
(date ignored) all match; the tagger comparison is only reached when sha and
message already match, and its `RuntimeError` propagates. -/
def cmp_existing_git_tag (t_tag : TTag) (e_tag : GitTag) : Except String Bool :=
  if t_tag.sha == e_tag.objectSha && t_tag.message == e_tag.message then
    cmp_gitauthor t_tag.tagger e_tag.tagger
  else
    .ok false

/-- A git reference as returned by the ref lookup: the sha of the object it
points at. -/
structure GitRef where
  objectSha : String
deriving Repr, DecidableEq

/-- Behaviour of the hosting platform on API calls against one repository:
normal service, rate-limit exceeded (`RateLimitExceededException`), or a
generic `GithubException`. -/
inductive FailMode : Type where
  | ok
  | rateLimit
  | ghError (msg : String)
deriving Repr, DecidableEq

/-- A hosted repository: its name, its team memberships, its existing tag refs
by tag name, its tag objects by sha, and the platform's current behaviour on
API calls against it. -/
structure Repo where
  full_name : String
  teams : List String
  refs : Dict GitRef
  tags : Dict GitTag
  failMode : FailMode
deriving Repr, DecidableEq

/-- Outcome of `check_existing_git_tag`: returned `True` (in sync), returned
`False` (no such tag), raised `GitTagExistsError`, raised
`RateLimitExceededException`, raised a generic `GithubException`, or let a
`RuntimeError` escape from the tagger comparison. -/
inductive TagCheckResult : Type where
  | insync
  | absent
  | tagExists (existingTag existingSha : String)
  | rateLimited
  | githubError (msg : String)
  | runtimeError (msg : String)
deriving Repr, DecidableEq

/-- Embedding of `check_existing_git_tag` (source lines 333-398). The ref
lookup `pygithub.find_tag_by_name` is a collaborator outside src/, modelled
from the spec: query the repository for an existing reference with the target
tag name, here `dlookup repo.refs`; `repo.get_git_tag` is `dlookup repo.tags`
(a dangling ref yields a generic `GithubException`). `repo.failMode` models
the platform raising on the query itself. -/
def check_existing_git_tag (repo : Repo) (t_tag : TTag) : TagCheckResult :=
  match repo.failMode with
  | .rateLimit => .rateLimited
  | .ghError m => .githubError m
  | .ok =>
    match dlookup repo.refs t_tag.name with
    | none => .absent
    | some e_ref =>
      match dlookup repo.tags e_ref.objectSha with
      | none => .githubError "get_git_tag failed"
      | some e_tag =>
        match cmp_existing_git_tag t_tag e_tag with
        | .error m => .runtimeError m
        | .ok true => .insync
        | .ok false => .tagExists e_tag.tag e_tag.sha

/-- How a pipeline stage can abort instead of returning its mapping: an
immediate fail-fast raise of one per-item error, the end-of-pass
`DogpileError` bundling the collected problems, an immediately propagated
`RateLimitExceededException`, or an uncaught Python runtime error
(`KeyError`, `UnboundLocalError`, `TypeError`, `RuntimeError`). -/
inductive StageAbort (ε : Type) : Type where
  | raised (e : ε)
  | dogpile (errs : List ε)
  | rateLimit
  | crash (msg : String)
deriving Repr, DecidableEq

/-- A Python `for` loop whose body may raise: thread the loop state through
the items, stopping at the first raised exception. -/
def loopFold {σ α ε : Type} (step : σ → α → Except ε σ) : σ → List α → Except ε σ
  | s, [] => .ok s
  | s, x :: xs =>
    match step s x with
    | .ok s' => loopFold step s' xs
    | .error e => .error e

/-- The two per-product failures collected by `cross_reference_products`:
a candidate product missing from the manifest, or a version-token mismatch
between the two sources. -/
inductive XRefError : Type where
  | missingManifest (product eups_version : String)
  | versionMismatch (product eups_version manifest_version : String)
deriving Repr, DecidableEq

/-- Loop state of `cross_reference_products`: the merged mapping built so far,
the collected problems, and the Python local variable `manifest_data`, which
persists across iterations of the loop and starts out unbound. -/
structure XRefState where
  products : Dict (Dict String)
  problems : List XRefError
  manifest_data : Option (Dict String)
deriving Repr, DecidableEq

/-- One iteration of the loop of `cross_reference_products` (source lines
181-220). The `except KeyError` arm appends the missing-manifest problem in
non-fail-fast mode but does not `continue`, so control falls through with the
local `manifest_data` still holding its previous value — or still unbound,
in which case the next read of it raises `UnboundLocalError`. -/
def cross_reference_products_step (manifest_products : Dict (Dict String))
    (ignore_version fail_fast : Bool) (st : XRefState) (item : String × Dict String) :
    Except (StageAbort XRefError) XRefState :=
  let name := item.1
  let eups_data := item.2
  match dlookup eups_data "eups_version" with
  | none => .error (.crash "KeyError: eups_version")
  | some eups_version =>
    let afterLookup : Except (StageAbort XRefError) (List XRefError × Option (Dict String)) :=
      match dlookup manifest_products name with
      | some md => .ok (st.problems, some md)
      | none =>
        if fail_fast then
          .error (.raised (.missingManifest name eups_version))
        else
          .ok (st.problems ++ [.missingManifest name eups_version], st.manifest_data)
    match afterLookup with
    | .error e => .error e
    | .ok (problems1, localMd) =>
      match localMd with
      | none => .error (.crash "UnboundLocalError: manifest_data")
      | some md0 =>
        let md := if ignore_version then dinsert md0 "eups_version" eups_version else md0
        match dlookup md "eups_version" with
        | none => .error (.crash "KeyError: eups_version")
        | some manifest_version =>
          let mismatchCheck : Except (StageAbort XRefError) (List XRefError) :=
            if eups_version != manifest_version then
              if fail_fast then
                .error (.raised (.versionMismatch name eups_version manifest_version))
              else
                .ok (problems1 ++ [.versionMismatch name eups_version manifest_version])
            else
              .ok problems1
          match mismatchCheck with
          | .error e => .error e
          | .ok problems2 =>
            .ok { products := dinsert st.products name (dupdate eups_data md),
                  problems := problems2,
                  manifest_data := some md }

/-- Embedding of `cross_reference_products` (source lines 153-226): loop over
the candidate products, then raise `DogpileError` over the collected problems
if there are any, else return the merged mapping. -/
def cross_reference_products (eups_products manifest_products : Dict (Dict String))
    (ignore_version fail_fast : Bool) : Except (StageAbort XRefError) (Dict (Dict String)) :=
  match loopFold (cross_reference_products_step manifest_products ignore_version fail_fast)
      { products := [], problems := [], manifest_data := none } eups_products with
  | .error e => .error e
  | .ok st => if st.problems.isEmpty then .ok st.products else .error (.dogpile st.problems)

/-- The two per-product failures collected by `get_repo_for_products`:
repository not found (`CaughtUnknownObjectError`) or a team-policy violation
(`RepositoryTeamMembershipError`). -/
inductive ResolveError : Type where
  | unknownObject (product : String)
  | teamMembership (repoName : String)
deriving Repr, DecidableEq

/-- Modelled from the spec: `pygithub.check_repo_teams` is a collaborator
outside src/. Per the spec's resolver policy, the check fails if the
repository's team names do not intersect the allow-team set, or if they
intersect the (optional) deny-team set; `true` means the policy passes. -/
def check_repo_teams (allow_teams : List String) (deny_teams : Option (List String))
    (team_names : List String) : Bool :=
  allow_teams.any (fun t => team_names.contains t)
    && !((deny_teams.getD []).any (fun t => team_names.contains t))

/-- A resolved product (source lines 284-286): the merged record extended
with the repository handle and the external flag (dict key `v`). -/
structure ResolvedProduct where
  fields : Dict String
  repo : Repo
  v : Bool
deriving Repr, DecidableEq

/-- Loop state of `get_repo_for_products`. -/
structure ResolveState where
  resolved : Dict ResolvedProduct
  problems : List ResolveError
deriving Repr, DecidableEq

/-- One iteration of the loop of `get_repo_for_products` (source lines
244-286). The organization's repositories are modelled as a dict from product
name to `Repo` (`org.get_repo`, absent meaning `UnknownObjectException`).
The external flag is `any(x in repo_team_names for x in ext_teams)`: iterating
`ext_teams` when it is `None` raises `TypeError`. -/
def get_repo_for_products_step (org : Dict Repo) (allow_teams : List String)
    (ext_teams deny_teams : Option (List String)) (fail_fast : Bool)
    (st : ResolveState) (item : String × Dict String) :
    Except (StageAbort ResolveError) ResolveState :=
  let name := item.1
  let data := item.2
  match dlookup data "eups_version" with
  | none => .error (.crash "KeyError: eups_version")
  | some _ =>
    match dlookup org name with
    | none =>
      if fail_fast then .error (.raised (.unknownObject name))
      else .ok { st with problems := st.problems ++ [.unknownObject name] }
    | some repo =>
      let repo_team_names := repo.teams
      if !check_repo_teams allow_teams deny_teams repo_team_names then
        if fail_fast then .error (.raised (.teamMembership repo.full_name))
        else .ok { st with problems := st.problems ++ [.teamMembership repo.full_name] }
      else
        match ext_teams with
        | none => .error (.crash "TypeError: NoneType is not iterable")
        | some ext =>
          let has_ext_team := ext.any (fun x => repo_team_names.contains x)
          .ok { st with resolved :=
                  dinsert st.resolved name { fields := data, repo := repo, v := has_ext_team } }

/-- Embedding of `get_repo_for_products` (source lines 229-292). -/
def get_repo_for_products (org : Dict Repo) (products : Dict (Dict String))
    (allow_teams : List String) (ext_teams deny_teams : Option (List String))
    (fail_fast : Bool) : Except (StageAbort ResolveError) (Dict ResolvedProduct) :=
  match loopFold (get_repo_for_products_step org allow_teams ext_teams deny_teams fail_fast)
      { resolved := [], problems := [] } products with
  | .error e => .error e
  | .ok st => if st.problems.isEmpty then .ok st.resolved else .error (.dogpile st.problems)

/-- Python's `re.match` of a digit class against a string: does the first
character exist and is it a digit? -/
def digit_start (s : String) : Bool :=
  match s.data with
  | [] => false
  | c :: _ => c.isDigit

/-- The per-product target tag built at source lines 412-417: copy the
template, set `sha` from the product record, and put a `v` in front of the
name when the product is external and the template name begins with a digit. -/
def build_target_tag (tmpl : TagTemplate) (v : Bool) (sha : String) : TTag :=
  { name := if v && digit_start tmpl.name then "v" ++ tmpl.name else tmpl.name,
    message := tmpl.message,
    tagger := tmpl.tagger,
    sha := sha }

/-- The two per-product failures collected by `check_product_tags` and
`tag_products`: a conflicting existing tag (`GitTagExistsError`) or a generic
host failure wrapped with repository context (`CaughtRepositoryError`). -/
inductive TagError : Type where
  | tagExists (existingTag existingSha : String)
  | caughtRepo (repoName msg : String)
deriving Repr, DecidableEq

/-- A planned product (source lines 463-465): the resolved product extended
with its target tag and the `update_tag` flag. -/
structure PlanEntry where
  product : ResolvedProduct
  target_tag : TTag
  update_tag : Bool
deriving Repr, DecidableEq

/-- Loop state of `check_product_tags`. -/
structure PlanState where
  checked : Dict PlanEntry
  problems : List TagError
deriving Repr, DecidableEq

/-- One iteration of the loop of `check_product_tags` (source lines 410-465).
An in-sync existing tag means `continue` with no plan entry and no problem.
`RateLimitExceededException` is re-raised at once. On `GitTagExistsError`
with `force_tag` set, control falls through to record the plan entry; the
source initializes `update_tag = False` and no branch ever assigns `True`
to it, so the recorded entry always carries `update_tag := false`. A
`RuntimeError` out of the tagger comparison matches no handler and escapes. -/
def check_product_tags_step (tag_template : TagTemplate) (force_tag fail_fast : Bool)
    (st : PlanState) (item : String × ResolvedProduct) :
    Except (StageAbort TagError) PlanState :=
  let name := item.1
  let data := item.2
  match dlookup data.fields "sha" with
  | none => .error (.crash "KeyError: sha")
  | some sha =>
    let t_tag := build_target_tag tag_template data.v sha
    let update_tag := false
    let entry : PlanEntry := { product := data, target_tag := t_tag, update_tag := update_tag }
    match check_existing_git_tag data.repo t_tag with
    | .insync => .ok st
    | .rateLimited => .error .rateLimit
    | .runtimeError m => .error (.crash m)
    | .tagExists etag esha =>
      if force_tag then
        .ok { st with checked := dinsert st.checked name entry }
      else if fail_fast then
        .error (.raised (.tagExists etag esha))
      else
        .ok { st with problems := st.problems ++ [.tagExists etag esha] }
    | .githubError m =>
      if fail_fast then
        .error (.raised (.caughtRepo data.repo.full_name m))
      else
        .ok { st with problems := st.problems ++ [.caughtRepo data.repo.full_name m] }
    | .absent =>
      .ok { st with checked := dinsert st.checked name entry }

/-- Embedding of `check_product_tags` (source lines 401-471). -/
def check_product_tags (products : Dict ResolvedProduct) (tag_template : TagTemplate)
    (force_tag fail_fast : Bool) : Except (StageAbort TagError) (Dict PlanEntry) :=
  match loopFold (check_product_tags_step tag_template force_tag fail_fast)
      { checked := [], problems := [] } products with
  | .error e => .error e
  | .ok st => if st.problems.isEmpty then .ok st.checked else .error (.dogpile st.problems)

/-- A remote mutation performed by the applier: creation of an annotated tag
object, a forced edit of an existing reference, or creation of a new
reference. -/
inductive Mutation : Type where
  | createTag (repoName : String) (t : TTag) (objSha : String)
  | editRef (repoName tagName newSha : String)
  | createRef (repoName refPath sha : String)
deriving Repr, DecidableEq

/-- The sha the platform assigns to a freshly created tag object; an opaque
deterministic stand-in for the remote-generated value. -/
def new_tag_object_sha (t : TTag) : String :=
  "tagobj:" ++ t.name ++ ":" ++ t.sha

/-- Loop state of `tag_products`: the remote mutations performed so far and
the collected problems. -/
structure ApplyState where
  muts : List Mutation
  problems : List TagError
deriving Repr, DecidableEq

/-- One iteration of the loop of `tag_products` (source lines 480-533). The
`info` notice is formatted first and reads the product's `eups_version`
(`KeyError` if absent); `dry_run` then short-circuits before any remote call.
Otherwise `create_git_tag` runs under the repository's fail mode
(`RateLimitExceededException` re-raised at once, a generic `GithubException`
wrapped and handled per the fail-fast policy); on success, `update_tag`
selects between force-editing the existing reference (located by name; a
missing reference is a host failure) and creating a brand-new
`refs/tags/<name>` reference. -/
def tag_products_step (fail_fast dry_run : Bool) (st : ApplyState)
    (item : String × PlanEntry) : Except (ApplyState × StageAbort TagError) ApplyState :=
  let data := item.2
  let t_tag := data.target_tag
  match dlookup data.product.fields "eups_version" with
  | none => .error (st, .crash "KeyError: eups_version")
  | some _ =>
    if dry_run then .ok st
    else
      match data.product.repo.failMode with
      | .rateLimit => .error (st, .rateLimit)
      | .ghError m =>
        if fail_fast then .error (st, .raised (.caughtRepo data.product.repo.full_name m))
        else .ok { st with problems := st.problems ++ [.caughtRepo data.product.repo.full_name m] }
      | .ok =>
        let objSha := new_tag_object_sha t_tag
        let st1 : ApplyState :=
          { st with muts := st.muts ++ [.createTag data.product.repo.full_name t_tag objSha] }
        if data.update_tag then
          match dlookup data.product.repo.refs t_tag.name with
          | some _ =>
            .ok { st1 with muts :=
                    st1.muts ++ [.editRef data.product.repo.full_name t_tag.name objSha] }
          | none =>
            if fail_fast then
              .error (st1, .raised (.caughtRepo data.product.repo.full_name "find_tag_by_name failed"))
            else
              .ok { st1 with problems :=
                      st1.problems ++ [.caughtRepo data.product.repo.full_name "find_tag_by_name failed"] }
        else
          .ok { st1 with muts :=
                  st1.muts ++ [.createRef data.product.repo.full_name
                    ("refs/tags/" ++ t_tag.name) objSha] }

/-- Embedding of `tag_products` (source lines 474-537): the performed
mutations together with the abort outcome, `none` meaning the function
returned normally. -/
def tag_products (products : Dict PlanEntry) (fail_fast dry_run : Bool) :
    ApplyState × Option (StageAbort TagError) :=
  match loopFold (tag_products_step fail_fast dry_run) { muts := [], problems := [] } products with
  | .ok st => if st.problems.isEmpty then (st, none) else (st, some (.dogpile st.problems))
  | .error e => (e.1, some e.2)

/-- The run-level configuration drawn from the parsed CLI arguments. -/
structure Config where
  fail_fast : Bool
  dry_run : Bool
  force_tag : Bool
  ignore_version : Bool
  limit : Option Nat
deriving Repr, DecidableEq

/-- Abort of the whole pipeline, tagged with the stage that raised. -/
inductive PipelineError : Type where
  | xref (e : StageAbort XRefError)
  | resolve (e : StageAbort ResolveError)
  | plan (e : StageAbort TagError)
  | apply (e : StageAbort TagError)
deriving Repr, DecidableEq

/-- The first three stage calls of `run` (source lines 601-628): cross
reference, optional truncation to `--limit` items (`if args.limit:` is false
for a zero limit), and repository resolution and tag planning — each invoked
with `fail_fast=False` (the source comments them "do not fail-fast on
non-write operations"), so this phase never reads `cfg.fail_fast`. -/
def run_plan_phase (cfg : Config) (eups_products manifest_products : Dict (Dict String))
    (org : Dict Repo) (allow_teams : List String) (ext_teams deny_teams : Option (List String))
    (tag_template : TagTemplate) : Except PipelineError (Dict PlanEntry) :=
  match cross_reference_products eups_products manifest_products cfg.ignore_version false with
  | .error e => .error (.xref e)
  | .ok products0 =>
    let products :=
      match cfg.limit with
      | none => products0
      | some n => if n == 0 then products0 else products0.take n
    match get_repo_for_products org products allow_teams ext_teams deny_teams false with
    | .error e => .error (.resolve e)
    | .ok resolved =>
      match check_product_tags resolved tag_template cfg.force_tag false with
      | .error e => .error (.plan e)
      | .ok plans => .ok plans

/-- Embedding of the pipeline wiring of `run` (source lines 601-634): the
plan phase followed by `tag_products`, which alone receives the configured
`fail_fast`; the result is the list of remote mutations performed. -/
def run_pipeline (cfg : Config) (eups_products manifest_products : Dict (Dict String))
    (org : Dict Repo) (allow_teams : List String) (ext_teams deny_teams : Option (List String))
    (tag_template : TagTemplate) : Except PipelineError (List Mutation) :=
  match run_plan_phase cfg eups_products manifest_products org allow_teams ext_teams
      deny_teams tag_template with
  | .error e => .error e
  | .ok plans =>
    match tag_products plans cfg.fail_fast cfg.dry_run with
    | (st, none) => .ok st.muts
    | (_, some ab) => .error (.apply ab)

instance {ε α : Type} [DecidableEq ε] [DecidableEq α] : DecidableEq (Except ε α) := fun a b =>
  match a, b with
  | .ok x, .ok y => if h : x = y then .isTrue (by rw [h]) else .isFalse (by simp [h])
  | .error e, .error f => if h : e = f then .isTrue (by rw [h]) else .isFalse (by simp [h])
  | .ok _, .error _ => .isFalse (by simp)
  | .error _, .ok _ => .isFalse (by simp)

/-- The individual per-item errors an abort carries: one for a fail-fast
raise, the collected list for a `DogpileError`, none for a rate-limit raise
or a crash. -/
def StageAbort.errors {ε : Type} : StageAbort ε → List ε
  | .raised e => [e]
  | .dogpile l => l
  | .rateLimit => []
  | .crash _ => []

/-- Is this cross-reference failure a version mismatch? -/
def XRefError.isMismatch : XRefError → Bool
  | .versionMismatch _ _ _ => true
  | _ => false

/-- Fixture: a tagger in the input-style representation, as `run` builds it
(`github.InputGitAuthor` with a keyed identity including a timestamp). -/
def exTagger : Author := .inputGitAuthor [("name", "A"), ("email", "a@x"), ("date", "t1")]

/-- Fixture: the same tagger identity in the direct representation
(`github.GitAuthor`), with a different timestamp. -/
def exTaggerGit : Author := .gitAuthor "A" "a@x" "t0"

/-- Fixture: the shared tag template. -/
def exTemplate : TagTemplate := { name := "w.2018.18", message := "m", tagger := exTagger }

/-- Fixture: a repository that already carries a tag named `w.2018.18` whose
tag object points at a different commit (`deadbeef`) than the target
(`abc123`) — a conflicting existing tag. -/
def conflictRepo : Repo :=
  { full_name := "org/pkgA", teams := ["Data Management"],
    refs := [("w.2018.18", { objectSha := "oldtagsha" })],
    tags := [("oldtagsha",
      { sha := "oldtagsha", tag := "w.2018.18", message := "m",
        tagger := exTaggerGit, objectSha := "deadbeef" })],
    failMode := .ok }

/-- Fixture: a repository whose existing `w.2018.18` tag already points at
`abc123` with the same message and the same tagger identity (timestamps
differ) — an in-sync existing tag. -/
def insyncRepo : Repo :=
  { full_name := "org/pkgA", teams := ["Data Management"],
    refs := [("w.2018.18", { objectSha := "oldtagsha" })],
    tags := [("oldtagsha",
      { sha := "oldtagsha", tag := "w.2018.18", message := "m",
        tagger := exTaggerGit, objectSha := "abc123" })],
    failMode := .ok }

/-- Fixture: a repository with no tags at all. -/
def plainRepo : Repo :=
  { full_name := "org/pkgB", teams := ["Data Management"],
    refs := [], tags := [], failMode := .ok }

/-- Fixture: a repository on which every API call hits the rate limit. -/
def rateLimitedRepo : Repo :=
  { full_name := "org/pkgC", teams := ["Data Management"],
    refs := [], tags := [], failMode := .rateLimit }

/-- Fixture: a repository on which every API call fails with a generic
host error. -/
def ghErrorRepo : Repo :=
  { full_name := "org/pkgD", teams := ["Data Management"],
    refs := [], tags := [], failMode := .ghError "boom" }

/-- Fixture: the resolved product whose repository carries the conflicting
tag. -/
def prodConflict : ResolvedProduct :=
  { fields := [("eups_version", "w_2018_18"), ("sha", "abc123")], repo := conflictRepo, v := false }

/-- Fixture: the resolved product whose repository carries the in-sync tag. -/
def prodInsync : ResolvedProduct :=
  { fields := [("eups_version", "w_2018_18"), ("sha", "abc123")], repo := insyncRepo, v := false }

/-- Fixture: a resolved product on the fresh repository. -/
def prodPlain : ResolvedProduct :=
  { fields := [("eups_version", "w_2018_18"), ("sha", "def456")], repo := plainRepo, v := false }

/-- Fixture: a resolved product on the rate-limited repository. -/
def prodRateLimited : ResolvedProduct :=
  { fields := [("eups_version", "w_2018_18"), ("sha", "cab789")], repo := rateLimitedRepo, v := false }

/-- Fixture: a resolved product on the repository with a generic host error. -/
def prodGhError : ResolvedProduct :=
  { fields := [("eups_version", "w_2018_18"), ("sha", "fed012")], repo := ghErrorRepo, v := false }

/-- Fixture: the target tag the planner builds for `prodConflict` under
`exTemplate`. -/
def conflictTargetTag : TTag :=
  { name := "w.2018.18", message := "m", tagger := exTagger, sha := "abc123" }

/-- Fixture: the plan entry the planner records for `prodConflict` under
`force_tag` — note `update_tag := false`, which is what the source computes. -/
def conflictPlan : PlanEntry :=
  { product := prodConflict, target_tag := conflictTargetTag, update_tag := false }

/-- Fixture: a plan entry for the fresh repository. -/
def plainPlan : PlanEntry :=
  { product := prodPlain,
    target_tag := { name := "w.2018.18", message := "m", tagger := exTagger, sha := "def456" },
    update_tag := false }

/-- Fixture: a plan entry whose repository rate-limits. -/
def rateLimitedPlan : PlanEntry :=
  { product := prodRateLimited,
    target_tag := { name := "w.2018.18", message := "m", tagger := exTagger, sha := "cab789" },
    update_tag := false }

/-- Fixture: a plan entry whose repository errors generically. -/
def ghErrorPlan : PlanEntry :=
  { product := prodGhError,
    target_tag := { name := "w.2018.18", message := "m", tagger := exTagger, sha := "fed012" },
    update_tag := false }

/-- Fixture: a repository belonging to the external team. -/
def extRepo : Repo :=
  { full_name := "org/pkgE", teams := ["DM Externals"],
    refs := [], tags := [], failMode := .ok }

/-- Fixture: an external resolved product (`v = true`). -/
def prodExt : ResolvedProduct :=
  { fields := [("eups_version", "11_0_rc2"), ("sha", "ext123")], repo := extRepo, v := true }

/-- Fixture: a tag template whose name begins with a digit. -/
def numTemplate : TagTemplate := { name := "11.0.rc2", message := "m", tagger := exTagger }

/-- Fixture: the plan entry the planner produces for the external product
under the digit-leading template: the tag name gains the `v` prefix. -/
def extPlan : PlanEntry :=
  { product := prodExt,
    target_tag := { name := "v11.0.rc2", message := "m", tagger := exTagger, sha := "ext123" },
    update_tag := false }

theorem dlookup_dinsert_self {α : Type} (d : Dict α) (k : String) (v : α) :
    dlookup (dinsert d k v) k = some v := by
  induction d with
  | nil => simp [dinsert, dlookup]
  | cons p d ih =>
    by_cases h : p.1 == k
    · simp [dinsert, dlookup, h]
    · simp [dinsert, dlookup, h, ih]

theorem dlookup_dinsert_ne {α : Type} (d : Dict α) (k k' : String) (v : α) (h : k' ≠ k) :
    dlookup (dinsert d k v) k' = dlookup d k' := by
  have hkk : (k == k') = false := by
    simp only [beq_eq_false_iff_ne]
    exact fun hc => h hc.symm
  induction d with
  | nil => simp [dinsert, dlookup, hkk]
  | cons p d ih =>
    by_cases hp : p.1 == k
    · have hp1 : p.1 = k := by simpa using hp
      have hp' : (p.1 == k') = false := by simp [hp1, hkk]
      simp [dinsert, dlookup, hp, hkk, hp']
    · simp [dinsert, dlookup, hp, ih]

theorem dinsert_eq_self {α : Type} (d : Dict α) (k : String) (v : α)
    (h : dlookup d k = some v) : dinsert d k v = d := by
  induction d with
  | nil => simp [dlookup] at h
  | cons p d ih =>
    by_cases hp : p.1 == k
    · have h1 : p.1 = k := by simpa using hp
      have h2 : p.2 = v := by
        have := h
        simp only [dlookup, hp, if_pos rfl] at this
        exact Option.some.inj (by simpa [dlookup, hp] using h)
      simp [dinsert, hp, ← h1, ← h2]
    · have hd : dlookup d k = some v := by simpa [dlookup, hp] using h
      simp [dinsert, hp, ih hd]

theorem dlookup_none_iff {α : Type} (d : Dict α) (k : String) :
    dlookup d k = none ↔ ∀ p ∈ d, p.1 ≠ k := by
  induction d with
  | nil => simp [dlookup]
  | cons p d ih =>
    by_cases hp : p.1 == k
    · have h1 : p.1 = k := by simpa using hp
      simp [dlookup, hp, h1]
    · have h1 : p.1 ≠ k := by simpa using hp
      simp only [dlookup, hp, if_neg (by simp [hp] : ¬ (p.1 == k) = true)]
      constructor
      · intro hnone q hq
        rcases List.mem_cons.mp hq with hq1 | hq2
        · rw [hq1]; exact h1
        · exact (ih.mp hnone) q hq2
      · intro hall
        exact ih.mpr (fun q hq => hall q (List.mem_cons.mpr (Or.inr hq)))

theorem keys_dinsert {α : Type} (d : Dict α) (k : String) (v : α) :
    (dinsert d k v).map (fun p => p.1) = d.map (fun p => p.1) ++
      (if (dlookup d k).isSome then [] else [k]) := by
  induction d with
  | nil => simp [dinsert, dlookup]
  | cons p d ih =>
    by_cases hp : p.1 == k
    · have h1 : p.1 = k := by simpa using hp
      simp [dinsert, dlookup, hp, h1]
    · simp [dinsert, dlookup, hp, ih]

theorem nodupKeys_dinsert {α : Type} (d : Dict α) (k : String) (v : α)
    (h : nodupKeys d) : nodupKeys (dinsert d k v) := by
  unfold nodupKeys at h ⊢
  rw [keys_dinsert]
  by_cases hk : (dlookup d k).isSome
  · simpa [hk] using h
  · have hnone : dlookup d k = none := by
      cases hdk : dlookup d k with
      | none => rfl
      | some w => rw [hdk] at hk; simp at hk
    have hnotmem : k ∉ d.map (fun p => p.1) := by
      intro hmem
      rcases List.mem_map.mp hmem with ⟨p, hpmem, hpk⟩
      exact (dlookup_none_iff d k).mp hnone p hpmem hpk
    rw [if_neg hk]
    refine List.nodup_append.mpr ⟨h, List.nodup_singleton k, ?_⟩
    intro a ha hb
    have : a = k := by simpa using hb
    rw [this] at ha
    exact hnotmem ha

theorem filter_key_length_one {α : Type} (d : Dict α) (k : String) (v : α)
    (h : nodupKeys d) (hl : dlookup d k = some v) :
    (d.filter (fun p => p.1 == k)).length = 1 := by
  induction d with
  | nil => simp [dlookup] at hl
  | cons p d ih =>
    unfold nodupKeys at h
    simp only [List.map_cons, List.nodup_cons] at h
    by_cases hp : p.1 == k
    · have h1 : p.1 = k := by simpa using hp
      have hknot : k ∉ d.map (fun q => q.1) := by rw [← h1]; exact h.1
      have hfilter : d.filter (fun q => q.1 == k) = [] := by
        rw [List.filter_eq_nil_iff]
        intro q hq
        simp only [beq_iff_eq]
        intro hqk
        exact hknot (List.mem_map.mpr ⟨q, hq, hqk⟩)
      simp [List.filter, hp, hfilter]
    · have hd : dlookup d k = some v := by simpa [dlookup, hp] using hl
      simp only [List.filter, hp]
      exact ih h.2 hd

theorem dlookup_split {α : Type} (d : Dict α) (k : String) (v : α)
    (h : dlookup d k = some v) :
    ∃ pre post, d = pre ++ (k, v) :: post ∧ ∀ p ∈ pre, p.1 ≠ k := by
  induction d with
  | nil => simp [dlookup] at h
  | cons p d ih =>
    by_cases hp : p.1 == k
    · have h1 : p.1 = k := by simpa using hp
      have h2 : p.2 = v := Option.some.inj (by simpa [dlookup, hp] using h)
      refine ⟨[], d, ?_, by simp⟩
      have : p = (k, v) := by
        rw [← h1, ← h2]
      rw [this]
      simp
    · have hd : dlookup d k = some v := by simpa [dlookup, hp] using h
      rcases ih hd with ⟨pre, post, hsplit, hpre⟩
      refine ⟨p :: pre, post, by simp [hsplit], ?_⟩
      intro q hq
      rcases List.mem_cons.mp hq with hq1 | hq2
      · rw [hq1]; simpa using hp
      · exact hpre q hq2

theorem nodup_post_of_split {α : Type} (pre post : List (String × α)) (k : String) (v : α)
    (h : nodupKeys (pre ++ (k, v) :: post)) : ∀ p ∈ post, p.1 ≠ k := by
  unfold nodupKeys at h
  simp only [List.map_append, List.map_cons] at h
  have h2 : (k :: post.map (fun p => p.1)).Nodup := h.of_append_right
  have h3 : k ∉ post.map (fun p => p.1) := (List.nodup_cons.mp h2).1
  intro p hp hpk
  exact h3 (List.mem_map.mpr ⟨p, hp, hpk⟩)

theorem dlookup_dupdate_not_mem {α : Type} (d m : Dict α) (k : String)
    (h : ∀ p ∈ m, p.1 ≠ k) : dlookup (dupdate d m) k = dlookup d k := by
  induction m generalizing d with
  | nil => simp [dupdate]
  | cons p m ih =>
    have hp : p.1 ≠ k := h p (by simp)
    have hrest : ∀ q ∈ m, q.1 ≠ k := fun q hq => h q (by simp [hq])
    show dlookup (dupdate (dinsert d p.1 p.2) m) k = dlookup d k
    rw [ih (dinsert d p.1 p.2) hrest]
    exact dlookup_dinsert_ne d p.1 k p.2 (fun hc => hp hc.symm)

theorem dlookup_dupdate_some {α : Type} (d m : Dict α) (k : String) (v : α)
    (hm : nodupKeys m) (h : dlookup m k = some v) : dlookup (dupdate d m) k = some v := by
  induction m generalizing d with
  | nil => simp [dlookup] at h
  | cons p m ih =>
    unfold nodupKeys at hm
    simp only [List.map_cons, List.nodup_cons] at hm
    by_cases hp : p.1 == k
    · have h1 : p.1 = k := by simpa using hp
      have h2 : p.2 = v := Option.some.inj (by simpa [dlookup, hp] using h)
      have hknot : ∀ q ∈ m, q.1 ≠ k := by
        intro q hq hqk
        exact hm.1 (by rw [h1]; exact List.mem_map.mpr ⟨q, hq, hqk⟩)
      show dlookup (dupdate (dinsert d p.1 p.2) m) k = some v
      rw [dlookup_dupdate_not_mem _ _ _ hknot, h1, h2]
      exact dlookup_dinsert_self d k v
    · have hd : dlookup m k = some v := by simpa [dlookup, hp] using h
      have hmrest : nodupKeys m := hm.2
      show dlookup (dupdate (dinsert d p.1 p.2) m) k = some v
      exact ih (dinsert d p.1 p.2) hmrest hd

theorem dlookup_dupdate_none {α : Type} (d m : Dict α) (k : String)
    (h : dlookup m k = none) : dlookup (dupdate d m) k = dlookup d k :=
  dlookup_dupdate_not_mem d m k ((dlookup_none_iff m k).mp h)

theorem dlookup_dinsert_origin {α : Type} (d : Dict α) (k k' : String) (v w : α)
    (h : dlookup (dinsert d k v) k' = some w) : w = v ∨ dlookup d k' = some w := by
  by_cases hk : k' = k
  · rw [hk, dlookup_dinsert_self] at h
    exact Or.inl (Option.some.inj h).symm
  · rw [dlookup_dinsert_ne d k k' v hk] at h
    exact Or.inr h


theorem loopFold_append_ok {σ α ε : Type} (step : σ → α → Except ε σ) (l1 : List α) :
    ∀ (s s' : σ) (l2 : List α), loopFold step s l1 = .ok s' →
      loopFold step s (l1 ++ l2) = loopFold step s' l2 := by
  induction l1 with
  | nil =>
    intro s s' l2 h
    simp only [loopFold] at h
    cases h
    simp
  | cons x l1 ih =>
    intro s s' l2 h
    simp only [List.cons_append, loopFold] at h ⊢
    cases hx : step s x with
    | ok t =>
      simp only [hx] at h ⊢
      exact ih t s' l2 h
    | error e2 =>
      simp only [hx] at h
      exact Except.noConfusion h

theorem loopFold_append_error {σ α ε : Type} (step : σ → α → Except ε σ) (l1 : List α) :
    ∀ (s : σ) (e : ε) (l2 : List α), loopFold step s l1 = .error e →
      loopFold step s (l1 ++ l2) = .error e := by
  induction l1 with
  | nil =>
    intro s e l2 h
    simp [loopFold] at h
  | cons x l1 ih =>
    intro s e l2 h
    simp only [List.cons_append, loopFold] at h ⊢
    cases hx : step s x with
    | ok t =>
      simp only [hx] at h ⊢
      exact ih t e l2 h
    | error f =>
      simp only [hx] at h ⊢
      exact h

theorem loopFold_append_inv {σ α ε : Type} (step : σ → α → Except ε σ) (l1 : List α) :
    ∀ (s s'' : σ) (l2 : List α), loopFold step s (l1 ++ l2) = .ok s'' →
      ∃ s', loopFold step s l1 = .ok s' ∧ loopFold step s' l2 = .ok s'' := by
  induction l1 with
  | nil =>
    intro s s'' l2 h
    exact ⟨s, rfl, h⟩
  | cons x l1 ih =>
    intro s s'' l2 h
    simp only [List.cons_append, loopFold] at h ⊢
    cases hx : step s x with
    | ok t =>
      simp only [hx] at h ⊢
      exact ih t s'' l2 h
    | error e =>
      simp only [hx] at h
      exact Except.noConfusion h

theorem loopFold_congr_state {σ α ε : Type} (step : σ → α → Except ε σ) (s : σ)
    (l : List α) (inv : σ → Prop) (hinit : inv s)
    (hstep : ∀ t x t', inv t → step t x = .ok t' → inv t') :
    ∀ s', loopFold step s l = .ok s' → inv s' := by
  induction l generalizing s with
  | nil =>
    intro s' h
    simp [loopFold] at h
    rwa [← h]
  | cons x l ih =>
    intro s' h
    unfold loopFold at h
    match hx : step s x with
    | .ok t =>
      rw [hx] at h
      exact ih t (hstep s x t hinit hx) s' h
    | .error e => rw [hx] at h; cases h

theorem tag_products_step_dry_run (fail_fast : Bool) (st : ApplyState)
    (item : String × PlanEntry) (ev : String)
    (h : dlookup item.2.product.fields "eups_version" = some ev) :
    tag_products_step fail_fast true st item = .ok st := by
  simp [tag_products_step, h]

theorem loopFold_id_of_step_id {σ α ε : Type} (step : σ → α → Except ε σ) (l : List α)
    (h : ∀ s x, x ∈ l → step s x = .ok s) : ∀ s, loopFold step s l = .ok s := by
  induction l with
  | nil => intro s; rfl
  | cons x xs ih =>
    intro s
    have hx : step s x = .ok s := h s x (by simp)
    simp only [loopFold, hx]
    exact ih (fun s y hy => h s y (by simp [hy])) s

theorem check_product_tags_step_insync (tmpl : TagTemplate) (force_tag fail_fast : Bool)
    (st : PlanState) (name : String) (data : ResolvedProduct) (sha : String)
    (hsha : dlookup data.fields "sha" = some sha)
    (hsync : check_existing_git_tag data.repo (build_target_tag tmpl data.v sha) = .insync) :
    check_product_tags_step tmpl force_tag fail_fast st (name, data) = .ok st := by
  simp [check_product_tags_step, hsha, hsync]

theorem check_product_tags_step_rate_limited (tmpl : TagTemplate) (force_tag fail_fast : Bool)
    (st : PlanState) (name : String) (data : ResolvedProduct) (sha : String)
    (hsha : dlookup data.fields "sha" = some sha)
    (hrl : data.repo.failMode = .rateLimit) :
    check_product_tags_step tmpl force_tag fail_fast st (name, data) = .error .rateLimit := by
  simp [check_product_tags_step, hsha, check_existing_git_tag, hrl]

theorem tag_products_step_rate_limited (fail_fast : Bool) (st : ApplyState)
    (item : String × PlanEntry) (ev : String)
    (h : dlookup item.2.product.fields "eups_version" = some ev)
    (hrl : item.2.product.repo.failMode = .rateLimit) :
    tag_products_step fail_fast false st item = .error (st, .rateLimit) := by
  simp [tag_products_step, h, hrl]

/-- C1: for a product whose repository already carries a tag with the target
name but a different sha, running the planner with `force_tag=true` records
the plan entry with `update_tag = false` — the force branch of the source
falls through without ever assigning `update_tag = True`, contradicting the
claim (and the source's own comment) — and the applier consequently creates a
brand-new reference instead of force-repointing the existing one. -/
theorem C1_force_tag_leaves_update_tag_false :
    check_product_tags [("pkgA", prodConflict)] exTemplate true false =
      .ok [("pkgA", conflictPlan)]
    ∧ conflictPlan.update_tag = false
    ∧ (tag_products [("pkgA", conflictPlan)] false false).1.muts =
        [.createTag "org/pkgA" conflictTargetTag (new_tag_object_sha conflictTargetTag),
         .createRef "org/pkgA" "refs/tags/w.2018.18" (new_tag_object_sha conflictTargetTag)] := by
  exact ⟨by decide, rfl, by decide⟩

/-- C2: with a single candidate product absent from the manifest and
`fail_fast=false`, cross-referencing does not aggregate one failure and
return zero products — the `except KeyError` arm lacks a `continue`, so the
loop body falls through and reads the never-assigned local `manifest_data`,
raising `UnboundLocalError` instead of the claimed single aggregated error. -/
theorem C2_missing_manifest_entry_crashes :
    cross_reference_products [("pkgB", [("eups_version", "1.0")])] [] false false =
      .error (.crash "UnboundLocalError: manifest_data")
    ∧ cross_reference_products [("pkgB", [("eups_version", "1.0")])] [] false false ≠
        .error (.dogpile [.missingManifest "pkgB" "1.0"]) := by
  exact ⟨by decide, by decide⟩

/-- C4: the resolver crashes with a `TypeError` when no external-team set is
supplied (`ext_teams=None` is iterated by the `any` expression), instead of
marking `is_external` false as claimed; when an external-team set is
supplied, `is_external` is computed as the intersection test, as the second
conjunct shows on a non-intersecting set. -/
theorem C4_absent_external_team_set_crashes :
    get_repo_for_products [("pkgA", plainRepo)]
        [("pkgA", [("eups_version", "1.0"), ("sha", "abc")])]
        ["Data Management"] none none false =
      .error (.crash "TypeError: NoneType is not iterable")
    ∧ get_repo_for_products [("pkgA", plainRepo)]
        [("pkgA", [("eups_version", "1.0"), ("sha", "abc")])]
        ["Data Management"] (some ["DM Externals"]) none false =
      .ok [("pkgA", { fields := [("eups_version", "1.0"), ("sha", "abc")],
                      repo := plainRepo, v := false })] := by
  exact ⟨by decide, by decide⟩

/-- C3 counterexample: a run configured with `fail_fast=true` whose
cross-reference stage hits a failing first product does not raise
immediately: the source invokes the cross-reference stage with
`fail_fast=False`, so the stage completes its pass over both mismatching
products and raises an aggregated two-error `DogpileError`, not the
immediate first-failure raise the claim describes. -/
theorem C3_counterexample_fail_fast_not_honored_before_apply :
    run_pipeline
        { fail_fast := true, dry_run := false, force_tag := false,
          ignore_version := false, limit := none }
        [("a", [("eups_version", "1")]), ("b", [("eups_version", "2")])]
        [("a", [("eups_version", "X")]), ("b", [("eups_version", "Y")])]
        [] ["T"] (some []) none exTemplate =
      .error (.xref (.dogpile
        [.versionMismatch "a" "1" "X", .versionMismatch "b" "2" "Y"]))
    ∧ run_pipeline
        { fail_fast := true, dry_run := false, force_tag := false,
          ignore_version := false, limit := none }
        [("a", [("eups_version", "1")]), ("b", [("eups_version", "2")])]
        [("a", [("eups_version", "X")]), ("b", [("eups_version", "Y")])]
        [] ["T"] (some []) none exTemplate ≠
      .error (.xref (.raised (.versionMismatch "a" "1" "X"))) := by
  exact ⟨by decide, by decide⟩

/-- C5: a resolved product whose repository's existing tag is in sync with
the target is skipped entirely by the planner — running the planner with the
product present equals running it with the product removed, so no plan entry
and no failure is recorded for it; when every product is in sync the plan is
empty, and the applier performs no mutation on an empty plan, so no duplicate
reference is ever created for an unchanged target. -/
theorem C5_insync_product_skipped :
    (∀ (tmpl : TagTemplate) (force_tag fail_fast : Bool)
       (pre post : Dict ResolvedProduct) (name : String) (data : ResolvedProduct) (sha : String),
       dlookup data.fields "sha" = some sha →
       check_existing_git_tag data.repo (build_target_tag tmpl data.v sha) = .insync →
       check_product_tags (pre ++ (name, data) :: post) tmpl force_tag fail_fast =
         check_product_tags (pre ++ post) tmpl force_tag fail_fast)
    ∧ (∀ (tmpl : TagTemplate) (force_tag fail_fast : Bool) (products : Dict ResolvedProduct),
       (∀ p ∈ products, ∃ sha, dlookup p.2.fields "sha" = some sha ∧
          check_existing_git_tag p.2.repo (build_target_tag tmpl p.2.v sha) = .insync) →
       check_product_tags products tmpl force_tag fail_fast = .ok [])
    ∧ (∀ (fail_fast dry_run : Bool),
       tag_products [] fail_fast dry_run = ({ muts := [], problems := [] }, none)) := by
  refine ⟨?_, ?_, ?_⟩
  · intro tmpl force_tag fail_fast pre post name data sha hsha hsync
    unfold check_product_tags
    cases hpre : loopFold (check_product_tags_step tmpl force_tag fail_fast)
        { checked := [], problems := [] } pre with
    | error e =>
      rw [loopFold_append_error _ pre _ e _ hpre, loopFold_append_error _ pre _ e _ hpre]
    | ok st =>
      rw [loopFold_append_ok _ pre _ st _ hpre, loopFold_append_ok _ pre _ st _ hpre]
      have hone : loopFold (check_product_tags_step tmpl force_tag fail_fast) st
          ((name, data) :: post) =
          loopFold (check_product_tags_step tmpl force_tag fail_fast) st post := by
        simp only [loopFold,
          check_product_tags_step_insync tmpl force_tag fail_fast st name data sha hsha hsync]
      rw [hone]
  · intro tmpl force_tag fail_fast products hall
    have hfold : loopFold (check_product_tags_step tmpl force_tag fail_fast)
        { checked := [], problems := [] } products = .ok { checked := [], problems := [] } := by
      apply loopFold_id_of_step_id
      intro s x hx
      rcases hall x hx with ⟨sha, hsha, hsync⟩
      have := check_product_tags_step_insync tmpl force_tag fail_fast s x.1 x.2 sha hsha hsync
      simpa using this
    unfold check_product_tags
    rw [hfold]
    rfl
  · intro fail_fast dry_run
    rfl

/-- C5 witness: a concrete in-sync product (existing tag already points at
the target sha with equal message and tagger identity) is skipped: the
planner on the singleton map equals the planner on the empty map. -/
theorem C5_insync_product_skipped_witness :
    dlookup prodInsync.fields "sha" = some "abc123"
    ∧ check_existing_git_tag prodInsync.repo
        (build_target_tag exTemplate prodInsync.v "abc123") = .insync
    ∧ check_product_tags [("pkgA", prodInsync)] exTemplate false false =
        check_product_tags [] exTemplate false false := by
  refine ⟨by decide, by decide, ?_⟩
  have h := C5_insync_product_skipped.1 exTemplate false false [] [] "pkgA" prodInsync
    "abc123" (by decide) (by decide)
  simpa using h

/-- C9: a rate-limit error raised by the hosting platform while the planner
queries a product's repository, or while the applier creates its tag object,
propagates out of the stage at once for either fail-fast setting: the stage's
result is the rate-limit abort, independent of the products that follow, and
no rate-limit failure is ever entered into the aggregated problem list. -/
theorem C9_rate_limit_never_aggregated :
    (∀ (tmpl : TagTemplate) (force_tag fail_fast : Bool)
       (pre rest : Dict ResolvedProduct) (st : PlanState)
       (name : String) (data : ResolvedProduct) (sha : String),
       loopFold (check_product_tags_step tmpl force_tag fail_fast)
         { checked := [], problems := [] } pre = .ok st →
       dlookup data.fields "sha" = some sha →
       data.repo.failMode = .rateLimit →
       check_product_tags (pre ++ (name, data) :: rest) tmpl force_tag fail_fast =
         .error .rateLimit)
    ∧ (∀ (fail_fast : Bool) (pre rest : Dict PlanEntry) (st : ApplyState)
       (name : String) (data : PlanEntry) (ev : String),
       loopFold (tag_products_step fail_fast false) { muts := [], problems := [] } pre = .ok st →
       dlookup data.product.fields "eups_version" = some ev →
       data.product.repo.failMode = .rateLimit →
       tag_products (pre ++ (name, data) :: rest) fail_fast false = (st, some .rateLimit)) := by
  constructor
  · intro tmpl force_tag fail_fast pre rest st name data sha hpre hsha hrl
    unfold check_product_tags
    have hcons : loopFold (check_product_tags_step tmpl force_tag fail_fast) st
        ((name, data) :: rest) = .error .rateLimit := by
      simp only [loopFold,
        check_product_tags_step_rate_limited tmpl force_tag fail_fast st name data sha hsha hrl]
    rw [loopFold_append_ok _ pre _ st _ hpre, hcons]
  · intro fail_fast pre rest st name data ev hpre hev hrl
    unfold tag_products
    have hcons : loopFold (tag_products_step fail_fast false) st ((name, data) :: rest) =
        .error (st, .rateLimit) := by
      simp only [loopFold,
        tag_products_step_rate_limited fail_fast st (name, data) ev hev hrl]
    rw [loopFold_append_ok _ pre _ st _ hpre, hcons]

/-- C9 witness: with a rate-limited repository as the first product, both the
planner and the applier abort with the rate-limit outcome at once even though
another product follows, for both fail-fast settings. -/
theorem C9_rate_limit_never_aggregated_witness :
    check_product_tags [("pkgC", prodRateLimited), ("pkgB", prodPlain)] exTemplate false false =
      .error .rateLimit
    ∧ tag_products [("pkgC", rateLimitedPlan), ("pkgB", plainPlan)] true false =
      ({ muts := [], problems := [] }, some .rateLimit) := by
  constructor
  · have h := C9_rate_limit_never_aggregated.1 exTemplate false false []
      [("pkgB", prodPlain)] { checked := [], problems := [] } "pkgC" prodRateLimited
      "cab789" rfl (by decide) (by decide)
    simpa using h
  · have h := C9_rate_limit_never_aggregated.2 true [] [("pkgB", plainPlan)]
      { muts := [], problems := [] } "pkgC" rateLimitedPlan "w_2018_18" rfl (by decide) (by decide)
    simpa using h

/-- C10: with `dry_run=true` the applier performs no remote mutation at all
and returns normally — no tag object, no reference creation, no reference
edit, and no abort — for any plan mapping whose entries carry their
`eups_version` field (as every pipeline-produced record does). -/
theorem C10_dry_run_no_mutation (products : Dict PlanEntry) (fail_fast : Bool)
    (h : ∀ p ∈ products, (dlookup p.2.product.fields "eups_version").isSome) :
    tag_products products fail_fast true = ({ muts := [], problems := [] }, none) := by
  have hfold : loopFold (tag_products_step fail_fast true) { muts := [], problems := [] }
      products = .ok { muts := [], problems := [] } := by
    apply loopFold_id_of_step_id
    intro s x hx
    rcases Option.isSome_iff_exists.mp (h x hx) with ⟨ev, hev⟩
    exact tag_products_step_dry_run fail_fast s x ev hev
  unfold tag_products
  rw [hfold]
  rfl

/-- C10 witness: a concrete two-entry plan (one of them on a repository whose
API calls would fail) is applied in dry-run mode with no mutation and no
abort. -/
theorem C10_dry_run_no_mutation_witness :
    tag_products [("pkgB", plainPlan), ("pkgD", ghErrorPlan)] true true =
      ({ muts := [], problems := [] }, none) :=
  C10_dry_run_no_mutation [("pkgB", plainPlan), ("pkgD", ghErrorPlan)] true (by decide)

theorem loopFold_cons_inv {σ α ε : Type} (step : σ → α → Except ε σ) (s s'' : σ)
    (x : α) (l : List α) (h : loopFold step s (x :: l) = .ok s'') :
    ∃ t, step s x = .ok t ∧ loopFold step t l = .ok s'' := by
  simp only [loopFold] at h
  cases hx : step s x with
  | ok t =>
    simp only [hx] at h
    exact ⟨t, rfl, h⟩
  | error e =>
    simp only [hx] at h
    exact Except.noConfusion h

theorem loopFold_inv_mem {σ α ε : Type} (step : σ → α → Except ε σ) (l : List α)
    (inv : σ → Prop)
    (hstep : ∀ t x t', x ∈ l → inv t → step t x = .ok t' → inv t') :
    ∀ s s', inv s → loopFold step s l = .ok s' → inv s' := by
  induction l with
  | nil =>
    intro s s' hs h
    simp only [loopFold] at h
    cases h
    exact hs
  | cons x xs ih =>
    intro s s' hs h
    rcases loopFold_cons_inv step s s' x xs h with ⟨t, hx, hrest⟩
    have hst : inv t := hstep s x t (by simp) hs hx
    exact ih (fun a b c hb => hstep a b c (by simp [hb])) t s' hst hrest

theorem loopFold_error_prop {σ α ε : Type} (step : σ → α → Except ε σ) (l : List α)
    (inv : σ → Prop) (errP : ε → Prop)
    (hok : ∀ t x t', x ∈ l → inv t → step t x = .ok t' → inv t')
    (herr : ∀ t x e, x ∈ l → inv t → step t x = .error e → errP e) :
    ∀ s e, inv s → loopFold step s l = .error e → errP e := by
  induction l with
  | nil =>
    intro s e hs h
    simp only [loopFold] at h
    exact Except.noConfusion h
  | cons x xs ih =>
    intro s e hs h
    simp only [loopFold] at h
    cases hx : step s x with
    | ok t =>
      simp only [hx] at h
      exact ih (fun a b c hb => hok a b c (by simp [hb]))
        (fun a b c hb => herr a b c (by simp [hb])) t e (hok s x t (by simp) hs hx) h
    | error f =>
      simp only [hx] at h
      cases h
      exact herr s x e (by simp) hs hx

theorem cross_reference_products_step_shape (manifest_products : Dict (Dict String))
    (ignore_version fail_fast : Bool) (st st' : XRefState) (item : String × Dict String)
    (h : cross_reference_products_step manifest_products ignore_version fail_fast st item =
      .ok st') :
    ∃ md, st'.products = dinsert st.products item.1 (dupdate item.2 md) := by
  simp only [cross_reference_products_step] at h
  split at h
  · exact Except.noConfusion h
  · split at h
    · exact Except.noConfusion h
    · split at h
      · exact Except.noConfusion h
      · split at h
        · exact Except.noConfusion h
        · split at h
          · exact Except.noConfusion h
          · cases h
            exact ⟨_, rfl⟩

/-- The loop iteration on a product present in the manifest with an equal
version token merges the two records and collects no problem, for either
value of `ignore_version`. -/
theorem cross_reference_products_step_hit (manifest_products : Dict (Dict String))
    (ignore_version fail_fast : Bool) (st : XRefState) (name : String) (e m : Dict String)
    (v : String)
    (hm : dlookup manifest_products name = some m)
    (hev : dlookup e "eups_version" = some v)
    (hmv : dlookup m "eups_version" = some v) :
    cross_reference_products_step manifest_products ignore_version fail_fast st (name, e) =
      .ok { products := dinsert st.products name (dupdate e m),
            problems := st.problems, manifest_data := some m } := by
  cases ignore_version with
  | false => simp [cross_reference_products_step, hm, hev, hmv]
  | true =>
    have hself : dinsert m "eups_version" v = m := dinsert_eq_self m "eups_version" v hmv
    simp [cross_reference_products_step, hm, hev, hself, hmv]

/-- The loop iteration on a product present in the manifest, with
`ignore_version` set, always succeeds with the candidate token substituted
into the manifest record before the merge. -/
theorem cross_reference_products_step_hit_ignore (manifest_products : Dict (Dict String))
    (fail_fast : Bool) (st : XRefState) (name : String) (e m : Dict String) (v : String)
    (hm : dlookup manifest_products name = some m)
    (hev : dlookup e "eups_version" = some v) :
    cross_reference_products_step manifest_products true fail_fast st (name, e) =
      .ok { products := dinsert st.products name (dupdate e (dinsert m "eups_version" v)),
            problems := st.problems, manifest_data := some (dinsert m "eups_version" v) } := by
  simp [cross_reference_products_step, hm, hev, dlookup_dinsert_self]

theorem cross_reference_fold_nodup (manifest_products : Dict (Dict String))
    (ignore_version fail_fast : Bool) (eups : Dict (Dict String)) (s s' : XRefState)
    (hs : nodupKeys s.products)
    (h : loopFold (cross_reference_products_step manifest_products ignore_version fail_fast)
      s eups = .ok s') : nodupKeys s'.products := by
  refine loopFold_inv_mem _ eups (fun t => nodupKeys t.products) ?_ s s' hs h
  intro t x t' _ ht hstep
  rcases cross_reference_products_step_shape manifest_products ignore_version fail_fast
    t t' x hstep with ⟨md, hshape⟩
  rw [hshape]
  exact nodupKeys_dinsert t.products x.1 (dupdate x.2 md) ht

/-- If a successful cross-reference run contains a product whose loop
iteration deterministically merges record `r` (and leaves the problems
untouched), then the returned mapping binds that product name to `r`, with
pairwise-distinct keys. -/
theorem cross_reference_ok_lookup (eups manifest_products : Dict (Dict String))
    (ignore_version fail_fast : Bool) (out : Dict (Dict String)) (name : String)
    (e r md : Dict String)
    (hok : cross_reference_products eups manifest_products ignore_version fail_fast = .ok out)
    (hne : nodupKeys eups)
    (he : dlookup eups name = some e)
    (hstep : ∀ st, cross_reference_products_step manifest_products ignore_version fail_fast
      st (name, e) =
      .ok { products := dinsert st.products name r, problems := st.problems,
            manifest_data := some md }) :
    dlookup out name = some r ∧ nodupKeys out := by
  unfold cross_reference_products at hok
  cases hfold : loopFold
      (cross_reference_products_step manifest_products ignore_version fail_fast)
      { products := [], problems := [], manifest_data := none } eups with
  | error e2 =>
    rw [hfold] at hok
    exact Except.noConfusion hok
  | ok stF =>
    rw [hfold] at hok
    have hout : out = stF.products := by
      by_cases hp : stF.problems.isEmpty
      · simp only [hp, if_true] at hok
        exact (Except.ok.inj hok).symm
      · simp only [hp, if_false] at hok
        exact Except.noConfusion hok
    rcases dlookup_split eups name e he with ⟨pre, post, hsplit, hprekeys⟩
    have hpostkeys : ∀ p ∈ post, p.1 ≠ name := by
      rw [hsplit] at hne
      exact nodup_post_of_split pre post name e hne
    rw [hsplit] at hfold
    rcases loopFold_append_inv _ pre _ stF _ hfold with ⟨s1, hpre, hrest⟩
    rcases loopFold_cons_inv _ s1 stF _ post hrest with ⟨s2, hstep1, hpost⟩
    have hn1 : nodupKeys s1.products :=
      cross_reference_fold_nodup manifest_products ignore_version fail_fast pre _ s1
        (by simp [nodupKeys]) hpre
    rw [hstep s1] at hstep1
    have hs2 : s2 = ⟨dinsert s1.products name r, s1.problems, some md⟩ :=
      (Except.ok.inj hstep1).symm
    have hinv2 : dlookup s2.products name = some r ∧ nodupKeys s2.products := by
      rw [hs2]
      exact ⟨dlookup_dinsert_self s1.products name r,
        nodupKeys_dinsert s1.products name r hn1⟩
    have hinvF : dlookup stF.products name = some r ∧ nodupKeys stF.products := by
      refine loopFold_inv_mem _ post
        (fun t => dlookup t.products name = some r ∧ nodupKeys t.products) ?_ s2 stF hinv2 hpost
      intro t x t' hx ht hstepx
      rcases cross_reference_products_step_shape manifest_products ignore_version fail_fast
        t t' x hstepx with ⟨md2, hshape⟩
      rw [hshape]
      constructor
      · rw [dlookup_dinsert_ne t.products x.1 name (dupdate x.2 md2)
          (fun hc => hpostkeys x hx hc.symm)]
        exact ht.1
      · exact nodupKeys_dinsert t.products x.1 (dupdate x.2 md2) ht.2
    rw [hout]
    exact hinvF

/-- With `ignore_version` set, no loop iteration of `cross_reference_products`
can produce a version-mismatch failure: every successful iteration keeps the
collected problems mismatch-free, and every abort carries only
mismatch-free failures. -/
theorem cross_reference_step_ignore_mismatch_free (manifest_products : Dict (Dict String))
    (fail_fast : Bool) (st : XRefState) (item : String × Dict String)
    (hp : st.problems.all (fun x => !x.isMismatch) = true) :
    (∀ st', cross_reference_products_step manifest_products true fail_fast st item = .ok st' →
       st'.problems.all (fun x => !x.isMismatch) = true)
    ∧ (∀ ab, cross_reference_products_step manifest_products true fail_fast st item =
         .error ab → ab.errors.all (fun x => !x.isMismatch) = true) := by
  obtain ⟨name, e⟩ := item
  cases hev : dlookup e "eups_version" with
  | none =>
    have hstep : cross_reference_products_step manifest_products true fail_fast st (name, e) =
        .error (.crash "KeyError: eups_version") := by
      simp [cross_reference_products_step, hev]
    constructor
    · intro st' h
      rw [hstep] at h
      exact Except.noConfusion h
    · intro ab h
      rw [hstep] at h
      cases h
      simp [StageAbort.errors]
  | some v =>
    cases hm : dlookup manifest_products name with
    | some md =>
      have hstep := cross_reference_products_step_hit_ignore manifest_products fail_fast
        st name e md v hm hev
      constructor
      · intro st' h
        rw [hstep] at h
        rw [← Except.ok.inj h]
        exact hp
      · intro ab h
        rw [hstep] at h
        exact Except.noConfusion h
    | none =>
      cases fail_fast with
      | true =>
        have hstep : cross_reference_products_step manifest_products true true st (name, e) =
            .error (.raised (.missingManifest name v)) := by
          simp [cross_reference_products_step, hev, hm]
        constructor
        · intro st' h
          rw [hstep] at h
          exact Except.noConfusion h
        · intro ab h
          rw [hstep] at h
          cases h
          simp [StageAbort.errors, XRefError.isMismatch]
      | false =>
        cases hl : st.manifest_data with
        | none =>
          have hstep : cross_reference_products_step manifest_products true false st (name, e) =
              .error (.crash "UnboundLocalError: manifest_data") := by
            simp [cross_reference_products_step, hev, hm, hl]
          constructor
          · intro st' h
            rw [hstep] at h
            exact Except.noConfusion h
          · intro ab h
            rw [hstep] at h
            cases h
            simp [StageAbort.errors]
        | some md0 =>
          have hstep : cross_reference_products_step manifest_products true false st (name, e) =
              .ok { products := dinsert st.products name
                      (dupdate e (dinsert md0 "eups_version" v)),
                    problems := st.problems ++ [.missingManifest name v],
                    manifest_data := some (dinsert md0 "eups_version" v) } := by
            simp [cross_reference_products_step, hev, hm, hl, dlookup_dinsert_self]
          constructor
          · intro st' h
            rw [hstep] at h
            rw [← Except.ok.inj h]
            simp only [List.all_append]
            rw [hp]
            simp [XRefError.isMismatch]
          · intro ab h
            rw [hstep] at h
            exact Except.noConfusion h

/-- C6: a product present in both sources with textually equal version
tokens yields exactly one merged record in a successful cross-reference run:
the returned mapping binds the name (exactly once) to the candidate record
updated with the manifest record, so every manifest field overrides and
every candidate-only field survives. -/
theorem C6_both_sources_equal_versions_merge (eups manifest_products : Dict (Dict String))
    (ignore_version fail_fast : Bool) (out : Dict (Dict String)) (name : String)
    (e m : Dict String) (v : String)
    (hok : cross_reference_products eups manifest_products ignore_version fail_fast = .ok out)
    (hne : nodupKeys eups) (hnm : nodupKeys m)
    (he : dlookup eups name = some e) (hm : dlookup manifest_products name = some m)
    (hev : dlookup e "eups_version" = some v) (hmv : dlookup m "eups_version" = some v) :
    dlookup out name = some (dupdate e m)
    ∧ (out.filter (fun p => p.1 == name)).length = 1
    ∧ (∀ k w, dlookup m k = some w → dlookup (dupdate e m) k = some w)
    ∧ (∀ k, dlookup m k = none → dlookup (dupdate e m) k = dlookup e k) := by
  have hmain := cross_reference_ok_lookup eups manifest_products ignore_version fail_fast out
    name e (dupdate e m) m hok hne he
    (fun st => cross_reference_products_step_hit manifest_products ignore_version fail_fast
      st name e m v hm hev hmv)
  exact ⟨hmain.1, filter_key_length_one out name (dupdate e m) hmain.2 hmain.1,
    fun k w hw => dlookup_dupdate_some e m k w hnm hw,
    fun k hk => dlookup_dupdate_none e m k hk⟩

/-- C6 witness: a concrete candidate/manifest pair with the same version
token cross-references to the single merged record carrying the manifest
sha next to the shared version token. -/
theorem C6_both_sources_equal_versions_merge_witness :
    cross_reference_products [("pkgA", [("eups_version", "w_2018_18")])]
        [("pkgA", [("eups_version", "w_2018_18"), ("sha", "abc123")])] false false =
      .ok [("pkgA", [("eups_version", "w_2018_18"), ("sha", "abc123")])]
    ∧ dlookup [("pkgA", [("eups_version", "w_2018_18"), ("sha", "abc123")])] "pkgA" =
        some (dupdate [("eups_version", "w_2018_18")]
          [("eups_version", "w_2018_18"), ("sha", "abc123")]) := by
  refine ⟨by decide, ?_⟩
  exact (C6_both_sources_equal_versions_merge
    [("pkgA", [("eups_version", "w_2018_18")])]
    [("pkgA", [("eups_version", "w_2018_18"), ("sha", "abc123")])] false false
    [("pkgA", [("eups_version", "w_2018_18"), ("sha", "abc123")])] "pkgA"
    [("eups_version", "w_2018_18")] [("eups_version", "w_2018_18"), ("sha", "abc123")]
    "w_2018_18" (by decide) (by decide) (by decide) (by decide) (by decide)
    (by decide) (by decide)).1

/-- C7: with `ignore_version` set, cross-referencing never records a
version-mismatch failure — every abort of the stage, fail-fast raise or
aggregated bundle, carries only mismatch-free failures — and for every
product present in both sources the merged record is the candidate record
updated with the manifest record whose version token was first overwritten
by the candidate token, so the merged record always carries the candidate
token. -/
theorem C7_ignore_version_uses_candidate_token :
    (∀ (eups manifest_products : Dict (Dict String)) (fail_fast : Bool)
       (ab : StageAbort XRefError),
       cross_reference_products eups manifest_products true fail_fast = .error ab →
       ab.errors.all (fun x => !x.isMismatch) = true)
    ∧ (∀ (eups manifest_products : Dict (Dict String)) (fail_fast : Bool)
        (out : Dict (Dict String)) (name : String) (e m : Dict String) (v : String),
       cross_reference_products eups manifest_products true fail_fast = .ok out →
       nodupKeys eups → nodupKeys m →
       dlookup eups name = some e → dlookup manifest_products name = some m →
       dlookup e "eups_version" = some v →
       dlookup out name = some (dupdate e (dinsert m "eups_version" v))
       ∧ dlookup (dupdate e (dinsert m "eups_version" v)) "eups_version" = some v) := by
  constructor
  · intro eups manifest_products fail_fast ab hab
    unfold cross_reference_products at hab
    cases hfold : loopFold (cross_reference_products_step manifest_products true fail_fast)
        { products := [], problems := [], manifest_data := none } eups with
    | error e2 =>
      rw [hfold] at hab
      have he2 : e2 = ab := Except.error.inj hab
      rw [← he2]
      refine loopFold_error_prop _ eups
        (fun t => t.problems.all (fun x => !x.isMismatch) = true)
        (fun f => f.errors.all (fun x => !x.isMismatch) = true) ?_ ?_ _ e2 (by simp) hfold
      · intro t x t' _ ht hx
        exact (cross_reference_step_ignore_mismatch_free manifest_products fail_fast
          t x ht).1 t' hx
      · intro t x f _ ht hx
        exact (cross_reference_step_ignore_mismatch_free manifest_products fail_fast
          t x ht).2 f hx
    | ok stF =>
      rw [hfold] at hab
      have hinv : stF.problems.all (fun x => !x.isMismatch) = true := by
        refine loopFold_inv_mem _ eups
          (fun t => t.problems.all (fun x => !x.isMismatch) = true) ?_ _ stF (by simp) hfold
        intro t x t' _ ht hx
        exact (cross_reference_step_ignore_mismatch_free manifest_products fail_fast
          t x ht).1 t' hx
      by_cases hp : stF.problems.isEmpty
      · simp only [hp, if_true] at hab
        exact Except.noConfusion hab
      · simp only [hp, if_false] at hab
        have hd : StageAbort.dogpile stF.problems = ab := Except.error.inj hab
        rw [← hd]
        simpa [StageAbort.errors] using hinv
  · intro eups manifest_products fail_fast out name e m v hok hne hnm he hm hev
    have hmain := cross_reference_ok_lookup eups manifest_products true fail_fast out
      name e (dupdate e (dinsert m "eups_version" v)) (dinsert m "eups_version" v) hok hne he
      (fun st => cross_reference_products_step_hit_ignore manifest_products fail_fast
        st name e m v hm hev)
    refine ⟨hmain.1, ?_⟩
    exact dlookup_dupdate_some e (dinsert m "eups_version" v) "eups_version" v
      (nodupKeys_dinsert m "eups_version" v hnm) (dlookup_dinsert_self m "eups_version" v)

/-- C7 witness: with mismatching tokens (`w_2018_18` vs `other`) and
`ignore_version` set, the stage succeeds and the merged record carries the
candidate token. -/
theorem C7_ignore_version_uses_candidate_token_witness :
    cross_reference_products [("pkgA", [("eups_version", "w_2018_18")])]
        [("pkgA", [("eups_version", "other"), ("sha", "abc123")])] true false =
      .ok [("pkgA", [("eups_version", "w_2018_18"), ("sha", "abc123")])]
    ∧ dlookup (dupdate [("eups_version", "w_2018_18")]
        (dinsert [("eups_version", "other"), ("sha", "abc123")] "eups_version" "w_2018_18"))
        "eups_version" = some "w_2018_18" := by
  refine ⟨by decide, ?_⟩
  exact (C7_ignore_version_uses_candidate_token.2
    [("pkgA", [("eups_version", "w_2018_18")])]
    [("pkgA", [("eups_version", "other"), ("sha", "abc123")])] false
    [("pkgA", [("eups_version", "w_2018_18"), ("sha", "abc123")])] "pkgA"
    [("eups_version", "w_2018_18")] [("eups_version", "other"), ("sha", "abc123")]
    "w_2018_18" (by decide) (by decide) (by decide) (by decide) (by decide)
    (by decide)).2

theorem check_product_tags_step_checked_shape (tmpl : TagTemplate)
    (force_tag fail_fast : Bool) (st st' : PlanState) (item : String × ResolvedProduct)
    (h : check_product_tags_step tmpl force_tag fail_fast st item = .ok st') :
    st'.checked = st.checked ∨
    ∃ sha, dlookup item.2.fields "sha" = some sha ∧
      st'.checked = dinsert st.checked item.1
        { product := item.2, target_tag := build_target_tag tmpl item.2.v sha,
          update_tag := false } := by
  simp only [check_product_tags_step] at h
  split at h
  · exact Except.noConfusion h
  next sha hsha =>
    split at h
    · rw [← Except.ok.inj h]
      exact Or.inl rfl
    · exact Except.noConfusion h
    · exact Except.noConfusion h
    · split at h
      · rw [← Except.ok.inj h]
        exact Or.inr ⟨sha, hsha, rfl⟩
      · split at h
        · exact Except.noConfusion h
        · rw [← Except.ok.inj h]
          exact Or.inl rfl
    · split at h
      · exact Except.noConfusion h
      · rw [← Except.ok.inj h]
        exact Or.inl rfl
    · rw [← Except.ok.inj h]
      exact Or.inr ⟨sha, hsha, rfl⟩

/-- C8: in any plan the planner returns, the recorded target tag name is the
template name with a `v` put in front exactly when the product's external
flag is set and the template name begins with a digit, and is the template
name unchanged otherwise. -/
theorem C8_v_prefix_iff_external_and_digit (products : Dict ResolvedProduct)
    (tmpl : TagTemplate) (force_tag fail_fast : Bool) (out : Dict PlanEntry)
    (name : String) (entry : PlanEntry)
    (hok : check_product_tags products tmpl force_tag fail_fast = .ok out)
    (hlook : dlookup out name = some entry) :
    entry.target_tag.name =
      (if entry.product.v && digit_start tmpl.name then "v" ++ tmpl.name else tmpl.name) := by
  unfold check_product_tags at hok
  cases hfold : loopFold (check_product_tags_step tmpl force_tag fail_fast)
      { checked := [], problems := [] } products with
  | error e =>
    rw [hfold] at hok
    exact Except.noConfusion hok
  | ok stF =>
    rw [hfold] at hok
    have hout : out = stF.checked := by
      by_cases hp : stF.problems.isEmpty
      · simp only [hp, if_true] at hok
        exact (Except.ok.inj hok).symm
      · simp only [hp, if_false] at hok
        exact Except.noConfusion hok
    have hinv : ∀ n en, dlookup stF.checked n = some en →
        en.target_tag.name =
          (if en.product.v && digit_start tmpl.name then "v" ++ tmpl.name else tmpl.name) := by
      refine loopFold_inv_mem _ products
        (fun s => ∀ n en, dlookup s.checked n = some en →
          en.target_tag.name =
            (if en.product.v && digit_start tmpl.name then "v" ++ tmpl.name else tmpl.name))
        ?_ _ stF ?_ hfold
      · intro t x t' _ ht hx n en hen
        rcases check_product_tags_step_checked_shape tmpl force_tag fail_fast t t' x hx with
          hsame | ⟨sha, _, hins⟩
        · rw [hsame] at hen
          exact ht n en hen
        · rw [hins] at hen
          rcases dlookup_dinsert_origin t.checked x.1 n _ en hen with hnew | hold
          · rw [hnew]
            simp [build_target_tag]
          · exact ht n en hold
      · intro n en hen
        exact absurd hen (by simp [dlookup])
    rw [hout] at hlook
    exact hinv name entry hlook

/-- C8 witness: an external product under a digit-leading template gets the
`v`-prefixed name, as the rule computes. -/
theorem C8_v_prefix_iff_external_and_digit_witness :
    check_product_tags [("pkgE", prodExt)] numTemplate false false = .ok [("pkgE", extPlan)]
    ∧ extPlan.target_tag.name =
        (if extPlan.product.v && digit_start numTemplate.name
         then "v" ++ numTemplate.name else numTemplate.name) := by
  refine ⟨by decide, ?_⟩
  exact C8_v_prefix_iff_external_and_digit [("pkgE", prodExt)] numTemplate false false
    [("pkgE", extPlan)] "pkgE" extPlan (by decide) (by decide)

theorem tag_products_step_not_fail_fast_no_raise (dry_run : Bool) (st : ApplyState)
    (item : String × PlanEntry) (err : ApplyState × StageAbort TagError)
    (h : tag_products_step false dry_run st item = .error err) :
    err.2 = .rateLimit ∨ ∃ msg, err.2 = .crash msg := by
  simp only [tag_products_step] at h
  split at h
  · have herr := Except.error.inj h
    exact Or.inr ⟨"KeyError: eups_version", by rw [← herr]⟩
  · split at h
    · exact Except.noConfusion h
    · split at h
      · have herr := Except.error.inj h
        exact Or.inl (by rw [← herr])
      · split at h
        · rename_i hff
          exact absurd hff (by simp)
        · exact Except.noConfusion h
      · split at h
        · split at h
          · exact Except.noConfusion h
          · split at h
            · rename_i hff
              exact absurd hff (by simp)
            · exact Except.noConfusion h
        · exact Except.noConfusion h

/-- C3 amended: the configured fail-fast flag is honored only by the apply
stage. First conjunct: the cross-reference, resolve and plan phase of `run`
is literally independent of the configured `fail_fast` (the source passes
`fail_fast=False` to all three). Second conjunct: with fail-fast, the apply
stage stops at its first failing iteration — the result is that iteration's
abort, whatever items follow. Third conjunct: without fail-fast, no apply
iteration ever aborts the pass with a per-product failure — only a
rate-limit raise or an uncaught runtime error can cut the pass short, so
per-product failures are aggregated over the full pass. -/
theorem C3_amended_fail_fast_only_in_apply :
    (∀ (ff1 ff2 dr ft iv : Bool) (lim : Option Nat) (eups mp : Dict (Dict String))
       (org : Dict Repo) (allow : List String) (ext deny : Option (List String))
       (tmpl : TagTemplate),
       run_plan_phase ⟨ff1, dr, ft, iv, lim⟩ eups mp org allow ext deny tmpl =
       run_plan_phase ⟨ff2, dr, ft, iv, lim⟩ eups mp org allow ext deny tmpl)
    ∧ (∀ (dr : Bool) (pre rest : Dict PlanEntry) (st : ApplyState)
        (err : ApplyState × StageAbort TagError) (item : String × PlanEntry),
       loopFold (tag_products_step true dr) { muts := [], problems := [] } pre = .ok st →
       tag_products_step true dr st item = .error err →
       tag_products (pre ++ item :: rest) true dr = (err.1, some err.2))
    ∧ (∀ (dr : Bool) (st : ApplyState) (item : String × PlanEntry)
        (err : ApplyState × StageAbort TagError),
       tag_products_step false dr st item = .error err →
       err.2 = .rateLimit ∨ ∃ msg, err.2 = .crash msg) := by
  refine ⟨?_, ?_, ?_⟩
  · intro ff1 ff2 dr ft iv lim eups mp org allow ext deny tmpl
    rfl
  · intro dr pre rest st err item hpre hstep
    unfold tag_products
    have hcons : loopFold (tag_products_step true dr) st (item :: rest) = .error err := by
      simp only [loopFold, hstep]
    rw [loopFold_append_ok _ pre _ st _ hpre, hcons]
  · intro dr st item err h
    exact tag_products_step_not_fail_fast_no_raise dr st item err h

/-- C3 witness: concrete instances of the three amended conjuncts — the plan
phase result is unchanged when the configured flag flips; a failing first
apply iteration under fail-fast yields its abort with a further product
pending; and a non-fail-fast abort at a rate-limited repository is the
rate-limit raise, not a per-product failure. -/
theorem C3_amended_fail_fast_only_in_apply_witness :
    run_plan_phase ⟨true, false, false, false, none⟩
        [("pkgA", [("eups_version", "1.0")])] [("pkgA", [("eups_version", "1.0")])]
        [("pkgA", plainRepo)] ["Data Management"] (some []) none exTemplate =
      run_plan_phase ⟨false, false, false, false, none⟩
        [("pkgA", [("eups_version", "1.0")])] [("pkgA", [("eups_version", "1.0")])]
        [("pkgA", plainRepo)] ["Data Management"] (some []) none exTemplate
    ∧ tag_products [("pkgD", ghErrorPlan), ("pkgB", plainPlan)] true false =
        ({ muts := [], problems := [] }, some (.raised (.caughtRepo "org/pkgD" "boom")))
    ∧ ((.rateLimit : StageAbort TagError) = .rateLimit
        ∨ ∃ msg, (.rateLimit : StageAbort TagError) = .crash msg) := by
  refine ⟨?_, ?_, ?_⟩
  · exact C3_amended_fail_fast_only_in_apply.1 true false false false false none
      [("pkgA", [("eups_version", "1.0")])] [("pkgA", [("eups_version", "1.0")])]
      [("pkgA", plainRepo)] ["Data Management"] (some []) none exTemplate
  · have h := C3_amended_fail_fast_only_in_apply.2.1 false [] [("pkgB", plainPlan)]
      { muts := [], problems := [] }
      ({ muts := [], problems := [] }, .raised (.caughtRepo "org/pkgD" "boom"))
      ("pkgD", ghErrorPlan) rfl (by decide)
    simpa using h
  · exact C3_amended_fail_fast_only_in_apply.2.2 false { muts := [], problems := [] }
      ("pkgC", rateLimitedPlan) ({ muts := [], problems := [] }, .rateLimit) (by decide)

end CodeKit
